import Mathlib

/-!
Verification development for the community-feed persistence and
social-counter layer of the `startup` repository.

Two server variants are embedded faithfully from the source:

* `Rel` — the MySQL-backed route handlers (`backend/routes/posts.js`,
  the comments router, and the relational schema with its
  `ON DELETE CASCADE` foreign keys and `UNIQUE KEY` constraints on
  `(post_id, user_id)` / `(comment_id, user_id)`).
* `FileSrv` — the flat-file `test-server.js` endpoints backed by the
  `storage.js` module.
* `Storage` — the `storage.js` load operations in file mode and in
  document-store (mongo) mode.

Each route handler becomes a pure function from a database state and the
request parameters to the new state paired with an HTTP-level result.
SQL statements are modelled row-by-row over lists; foreign-key and
unique-key violations raised by the database surface as `serverError`
(the handlers' catch-all `500` branch), exactly as in the source.
-/

/-- JavaScript's `String.prototype.trim()` at the shallow-embedding
level: strip whitespace from both ends (written over the character list
so that it evaluates inside the kernel). -/
def jsTrim (s : String) : String :=
  ⟨((s.data.dropWhile Char.isWhitespace).reverse.dropWhile Char.isWhitespace).reverse⟩

namespace Rel

/-- A row of the `posts` table (schema: id, user_id, content, image_url,
likes_count, comments_count, created_at). -/
structure Post where
  id : Nat
  user_id : Nat
  content : String
  likes_count : Int
  comments_count : Int
  created_at : Nat
  deriving Repr, DecidableEq

/-- A row of the `comments` table. -/
structure Comment where
  id : Nat
  post_id : Nat
  user_id : Nat
  content : String
  likes_count : Int
  created_at : Nat
  deriving Repr, DecidableEq

/-- A row of the `post_likes` table (the surrogate `id` column plays no
role in any handler, so it is omitted; identity is the
`UNIQUE KEY (post_id, user_id)` pair). -/
structure PostLike where
  post_id : Nat
  user_id : Nat
  deriving Repr, DecidableEq

/-- A row of the `comment_likes` table. -/
structure CommentLike where
  comment_id : Nat
  user_id : Nat
  deriving Repr, DecidableEq

/-- The relational database state: the four tables the feed layer
touches.  Users are kept as their id list, which is all the foreign-key
checks on `user_id` consult. -/
structure DB where
  users : List Nat
  posts : List Post
  comments : List Comment
  post_likes : List PostLike
  comment_likes : List CommentLike
  deriving Repr, DecidableEq

/-- HTTP-level outcome of a handler: `ok` carries the JSON body's
message and the returned counter where the route returns one. -/
inductive HResult where
  | ok (message : String) (count : Int)
  | okNoCount (message : String)
  | badRequest (message : String)
  | notFound (message : String)
  | serverError
  deriving Repr, DecidableEq

/-- `SELECT id FROM post_likes WHERE post_id = ? AND user_id = ?`. -/
def postLikeRows (db : DB) (postId userId : Nat) : List PostLike :=
  db.post_likes.filter (fun l => l.post_id == postId && l.user_id == userId)

/-- `SELECT id FROM comment_likes WHERE comment_id = ? AND user_id = ?`. -/
def commentLikeRows (db : DB) (commentId userId : Nat) : List CommentLike :=
  db.comment_likes.filter (fun l => l.comment_id == commentId && l.user_id == userId)

/-- `router.post('/:id/like')` in `backend/routes/posts.js` (lines
82–129).  Looks up existing likes for the pair; if present, deletes them
and decrements `likes_count`; otherwise inserts the like row (which the
database rejects with a foreign-key error when the post or the user does
not exist — the handler's catch turns that into a 500) and increments
`likes_count`.  Finally re-reads `likes_count`; an empty result set makes
`posts[0].likes_count` throw, again a 500, with the earlier single-row
statements already applied (no transaction). -/
def togglePostLike (db : DB) (postId userId : Nat) : DB × HResult :=
  let existingLikes := postLikeRows db postId userId
  if existingLikes.length > 0 then
    -- Unlike: DELETE the pair's rows, then UPDATE likes_count - 1.
    let db1 : DB :=
      { db with
        post_likes :=
          db.post_likes.filter
            (fun l => !(l.post_id == postId && l.user_id == userId)),
        posts :=
          db.posts.map (fun p =>
            if p.id == postId then { p with likes_count := p.likes_count - 1 } else p) }
    match db1.posts.find? (fun p => p.id == postId) with
    | some p => (db1, .ok "Post unliked" p.likes_count)
    | none => (db1, .serverError)
  else
    -- Like: INSERT the row; FK constraints require the post and the user.
    if db.posts.any (fun p => p.id == postId) && db.users.any (fun u => u == userId) then
      let db1 : DB :=
        { db with
          post_likes := db.post_likes ++ [⟨postId, userId⟩],
          posts :=
            db.posts.map (fun p =>
              if p.id == postId then { p with likes_count := p.likes_count + 1 } else p) }
      match db1.posts.find? (fun p => p.id == postId) with
      | some p => (db1, .ok "Post liked" p.likes_count)
      | none => (db1, .serverError)
    else
      (db, .serverError)

/-- `router.post('/:id/like')` in the comments router (lines 97–144),
identical to the post variant over `comment_likes` / `comments`. -/
def toggleCommentLike (db : DB) (commentId userId : Nat) : DB × HResult :=
  let existingLikes := commentLikeRows db commentId userId
  if existingLikes.length > 0 then
    let db1 : DB :=
      { db with
        comment_likes :=
          db.comment_likes.filter
            (fun l => !(l.comment_id == commentId && l.user_id == userId)),
        comments :=
          db.comments.map (fun c =>
            if c.id == commentId then { c with likes_count := c.likes_count - 1 } else c) }
    match db1.comments.find? (fun c => c.id == commentId) with
    | some c => (db1, .ok "Comment unliked" c.likes_count)
    | none => (db1, .serverError)
  else
    if db.comments.any (fun c => c.id == commentId) && db.users.any (fun u => u == userId) then
      let db1 : DB :=
        { db with
          comment_likes := db.comment_likes ++ [⟨commentId, userId⟩],
          comments :=
            db.comments.map (fun c =>
              if c.id == commentId then { c with likes_count := c.likes_count + 1 } else c) }
      match db1.comments.find? (fun c => c.id == commentId) with
      | some c => (db1, .ok "Comment liked" c.likes_count)
      | none => (db1, .serverError)
    else
      (db, .serverError)

/-- `router.post('/post/:postId')` in the comments router (lines 38–94):
reject empty trimmed content with 400 (the attachment list plays no role
here), 404 when the parent post is absent, then INSERT the comment (the
`user_id` foreign key must hold, else 500) and UPDATE the parent's
`comments_count + 1`.  `newId` stands for MySQL's `AUTO_INCREMENT`
insert id, `now` for the row's `CURRENT_TIMESTAMP`. -/
def createComment (db : DB) (postId userId : Nat) (content : Option String)
    (newId now : Nat) : DB × HResult :=
  match content with
  | none => (db, .badRequest "Comment content is required")
  | some s =>
    if (jsTrim s).length == 0 then
      (db, .badRequest "Comment content is required")
    else if !(db.posts.any (fun p => p.id == postId)) then
      (db, .notFound "Post not found")
    else if !(db.users.any (fun u => u == userId)) then
      (db, .serverError)
    else
      let db1 : DB :=
        { db with
          comments := db.comments ++ [⟨newId, postId, userId, jsTrim s, 0, now⟩],
          posts :=
            db.posts.map (fun p =>
              if p.id == postId then
                { p with comments_count := p.comments_count + 1 }
              else p) }
      (db1, .okNoCount "Comment created successfully")

/-- The ids of the comments attached to `postId`. -/
def commentIdsOf (db : DB) (postId : Nat) : List Nat :=
  (db.comments.filter (fun c => c.post_id == postId)).map (fun c => c.id)

/-- `router.delete('/:id')` in `backend/routes/posts.js` (lines
132–155): the lookup `WHERE id = ? AND user_id = ?` conflates a missing
post and a non-author caller into one 404; on a match, `DELETE FROM
posts WHERE id = ?` with the schema's `ON DELETE CASCADE` removing the
post's comments, its `post_likes`, and (through the comments) their
`comment_likes`. -/
def deletePost (db : DB) (postId userId : Nat) : DB × HResult :=
  let rows := db.posts.filter (fun p => p.id == postId && p.user_id == userId)
  if rows.length == 0 then
    (db, .notFound "Post not found or not authorized")
  else
    let removed := commentIdsOf db postId
    let db1 : DB :=
      { db with
        posts := db.posts.filter (fun p => !(p.id == postId)),
        comments := db.comments.filter (fun c => !(c.post_id == postId)),
        post_likes := db.post_likes.filter (fun l => !(l.post_id == postId)),
        comment_likes :=
          db.comment_likes.filter (fun l => !(removed.contains l.comment_id)) }
    (db1, .okNoCount "Post deleted successfully")

/-- `router.delete('/:id')` in the comments router (lines 147–178):
404 when no comment matches `id` and author, else DELETE the comment
(cascading to its `comment_likes`) and decrement the parent post's
`comments_count`. -/
def deleteComment (db : DB) (commentId userId : Nat) : DB × HResult :=
  let rows := db.comments.filter (fun c => c.id == commentId && c.user_id == userId)
  match rows with
  | [] => (db, .notFound "Comment not found or not authorized")
  | c :: _ =>
    let postId := c.post_id
    let db1 : DB :=
      { db with
        comments := db.comments.filter (fun c => !(c.id == commentId)),
        comment_likes :=
          db.comment_likes.filter (fun l => !(l.comment_id == commentId)),
        posts :=
          db.posts.map (fun p =>
            if p.id == postId then
              { p with comments_count := p.comments_count - 1 }
            else p) }
    (db1, .okNoCount "Comment deleted successfully")

/-- `n` successive like-toggle requests on the same (post, user) pair,
each applied to the state the previous one produced. -/
def iterTogglePost (db0 : DB) (postId userId : Nat) : Nat → DB
  | 0 => db0
  | n + 1 => (togglePostLike (iterTogglePost db0 postId userId n) postId userId).1

/-- `n` successive like-toggle requests on the same (comment, user)
pair. -/
def iterToggleComment (db0 : DB) (commentId userId : Nat) : Nat → DB
  | 0 => db0
  | n + 1 => (toggleCommentLike (iterToggleComment db0 commentId userId n) commentId userId).1

end Rel

namespace FileSrv

/-- The slice of a registered user relevant to the post/comment
endpoints of `test-server.js`: the ban flag consulted before creation. -/
structure FUser where
  banned : Bool
  deriving Repr, DecidableEq

/-- A post as `test-server.js` creates and stores it (no counters). -/
structure FPost where
  id : Nat
  user_name : String
  user_email : String
  content : String
  attachments : List String
  created_at : Nat
  deriving Repr, DecidableEq

/-- A comment as `test-server.js` creates and stores it. -/
structure FComment where
  id : Nat
  post_id : Nat
  user_name : String
  user_email : String
  content : String
  attachments : List String
  created_at : Nat
  deriving Repr, DecidableEq

/-- The file-backed state: the users mapping (keyed by email) and the
posts and comments arrays, as held by the three JSON files. -/
structure FState where
  users : List (String × FUser)
  posts : List FPost
  comments : List FComment
  deriving Repr, DecidableEq

/-- Outcome of a `test-server.js` endpoint. -/
inductive FResult where
  | ok (message : String)
  | badRequest (message : String)
  | forbidden (message : String)
  | notFound (message : String)
  deriving Repr, DecidableEq

/-- JavaScript truthiness of the optional `content` field: `!content`
holds for an absent field and for the empty string, but a
whitespace-only string is truthy. -/
def contentTruthy : Option String → Bool
  | none => false
  | some s => !(s == "")

/-- Lookup `users[email]` in the mapping object. -/
def lookupUser (users : List (String × FUser)) (email : String) : Option FUser :=
  (users.find? (fun e => e.1 == email)).map (fun e => e.2)

/-- `app.post('/api/posts')` in `test-server.js` (lines 705–745):
validation `if (!content && attachments.length === 0)` → 400 (no
trimming); a banned author → 403; otherwise the new post (id
`Date.now()`, here `newId`/`now`) is unshifted onto the posts array. -/
def createPost (st : FState) (content : Option String) (attachments : List String)
    (userName userEmail : Option String) (newId now : Nat) : FState × FResult :=
  if !(contentTruthy content) && attachments.length == 0 then
    (st, .badRequest "Post content or attachments required")
  else
    let bannedHit :=
      match userEmail with
      | none => false
      | some email =>
        match lookupUser st.users email with
        | some u => u.banned
        | none => false
    if bannedHit then
      (st, .forbidden "Your account has been banned. You cannot create posts.")
    else
      let newPost : FPost :=
        { id := newId,
          user_name := userName.getD "Anonymous User",
          user_email := userEmail.getD "anonymous@example.com",
          content := content.getD "",
          attachments := attachments,
          created_at := now }
      ({ st with posts := newPost :: st.posts }, .ok "Post created successfully")

/-- `app.post('/api/comments/post/:postId')` in `test-server.js` (lines
758–799): the same truthiness validation and ban check as post
creation, and then the comment is pushed — with NO check that the parent
post exists and no counter maintained anywhere. -/
def createComment (st : FState) (postId : Nat) (content : Option String)
    (attachments : List String) (userName userEmail : Option String)
    (newId now : Nat) : FState × FResult :=
  if !(contentTruthy content) && attachments.length == 0 then
    (st, .badRequest "Comment content or attachments required")
  else
    let bannedHit :=
      match userEmail with
      | none => false
      | some email =>
        match lookupUser st.users email with
        | some u => u.banned
        | none => false
    if bannedHit then
      (st, .forbidden "Your account has been banned. You cannot create comments.")
    else
      let newComment : FComment :=
        { id := newId,
          post_id := postId,
          user_name := userName.getD "Anonymous User",
          user_email := userEmail.getD "anonymous@example.com",
          content := content.getD "",
          attachments := attachments,
          created_at := now }
      ({ st with comments := st.comments ++ [newComment] },
       .ok "Comment added successfully")

/-- `app.delete('/api/posts/:postId')` in `test-server.js` (lines
802–822): no authorization and no existence check — posts and comments
are filtered by id and 200 is returned unconditionally. -/
def deletePost (st : FState) (postId : Nat) : FState × FResult :=
  let st1 : FState :=
    { st with
      posts := st.posts.filter (fun p => !(p.id == postId)),
      comments := st.comments.filter (fun c => !(c.post_id == postId)) }
  (st1, .ok "Post deleted successfully")

/-- `app.delete('/api/comments/:commentId')` in `test-server.js` (lines
825–853): 404 when the comment is absent; then only the owner, an
`isAdmin` caller, or `admin@startup.com` may delete, others get 403. -/
def deleteComment (st : FState) (commentId : Nat) (email : Option String)
    (isAdmin : Bool) : FState × FResult :=
  match st.comments.find? (fun c => c.id == commentId) with
  | none => (st, .notFound "Comment not found")
  | some target =>
    let isOwner :=
      match email with
      | none => false
      | some e => target.user_email == e
    let allow := isOwner || isAdmin || email == some "admin@startup.com"
    if !allow then
      (st, .forbidden "Not allowed to delete this comment")
    else
      ({ st with comments := st.comments.filter (fun c => !(c.id == commentId)) },
       .ok "Comment deleted successfully")

end FileSrv

namespace Storage

/-- Shape-level content of one backing JSON file: `none` when the file
does not exist, `some (Except.error _)` when it exists but holds
malformed JSON (so `JSON.parse` throws), `some (Except.ok v)` when it
parses to the collection value `v`. -/
def FileContent (α : Type) := Option (Except String α)

/-- `loadUsers` (file branch, `storage.js` lines 76–79): when
`fs.existsSync` fails the function returns `{}` without touching the
parser; otherwise the parse result (or its exception) is propagated. -/
def loadUsersFile (file : FileContent (List (String × FileSrv.FUser))) :
    Except String (List (String × FileSrv.FUser)) :=
  match file with
  | none => .ok []
  | some r => r

/-- `loadPosts` (file branch, `storage.js` lines 100–103). -/
def loadPostsFile (file : FileContent (List FileSrv.FPost)) :
    Except String (List FileSrv.FPost) :=
  match file with
  | none => .ok []
  | some r => r

/-- `loadComments` (file branch, `storage.js` lines 122–125). -/
def loadCommentsFile (file : FileContent (List FileSrv.FComment)) :
    Except String (List FileSrv.FComment) :=
  match file with
  | none => .ok []
  | some r => r

/-- Insert a post into a list kept in descending `created_at` order —
the comparison mongo's `sort({ created_at: -1 })` applies. -/
def insertByCreatedDesc (p : FileSrv.FPost) : List FileSrv.FPost → List FileSrv.FPost
  | [] => [p]
  | q :: qs =>
    if p.created_at ≥ q.created_at then p :: q :: qs
    else q :: insertByCreatedDesc p qs

/-- The ordering mongo applies in `loadPosts`:
`find({}).sort({ created_at: -1 })`. -/
def sortByCreatedDesc (l : List FileSrv.FPost) : List FileSrv.FPost :=
  l.foldr insertByCreatedDesc []

/-- `loadPosts` (mongo branch, `storage.js` lines 96–99): the stored
sequence (the insertion order `savePosts` wrote) is returned sorted by
`created_at` descending. -/
def loadPostsMongo (stored : List FileSrv.FPost) : List FileSrv.FPost :=
  sortByCreatedDesc stored

/-- `loadComments` (mongo branch, lines 118–121): `find({})` with no
sort returns natural (insertion) order. -/
def loadCommentsMongo (stored : List FileSrv.FComment) : List FileSrv.FComment :=
  stored

/-- JavaScript `obj[key] = value` on a mapping object: replace in place
when the key is present, append otherwise. -/
def objAssign (obj : List (String × FileSrv.FUser)) (key : String)
    (v : FileSrv.FUser) : List (String × FileSrv.FUser) :=
  if obj.any (fun e => e.1 == key) then
    obj.map (fun e => if e.1 == key then (key, v) else e)
  else
    obj ++ [(key, v)]

/-- `loadUsers` (mongo branch, lines 70–75): fold the collection's
documents into a fresh object keyed by email. -/
def loadUsersMongo (stored : List (String × FileSrv.FUser)) :
    List (String × FileSrv.FUser) :=
  stored.foldl (fun obj e => objAssign obj e.1 e.2) []

/-- `loadPosts` in file mode on a well-formed stored array: the array
itself (the parse is the identity at this shape level). -/
def loadPostsFileStored (stored : List FileSrv.FPost) : List FileSrv.FPost :=
  stored

/-- `loadComments` in file mode on a well-formed stored array. -/
def loadCommentsFileStored (stored : List FileSrv.FComment) : List FileSrv.FComment :=
  stored

/-- `loadUsers` in file mode on a well-formed stored mapping. -/
def loadUsersFileStored (stored : List (String × FileSrv.FUser)) :
    List (String × FileSrv.FUser) :=
  stored

end Storage

/-! ## Shared list lemmas -/

theorem filter_not_filter_eq_nil {α : Type} (l : List α) (p : α → Bool) :
    (l.filter (fun x => !(p x))).filter p = [] := by
  rw [List.filter_filter]; simp

theorem filter_not_eq_self_of_filter_nil {α : Type} (l : List α) (p : α → Bool)
    (h : l.filter p = []) : l.filter (fun x => !(p x)) = l := by
  rw [List.filter_eq_self]
  intro a ha
  simp [List.filter_eq_nil_iff] at h
  simp [h a ha]

theorem any_of_find?_some {α : Type} {l : List α} {p : α → Bool} {x : α}
    (h : l.find? p = some x) : l.any p = true :=
  List.any_eq_true.mpr ⟨x, List.mem_of_find?_eq_some h, List.find?_some h⟩

theorem length_filter_not_add {α : Type} (l : List α) (p : α → Bool) :
    (l.filter (fun x => !(p x))).length + (l.filter p).length = l.length := by
  induction l with
  | nil => simp
  | cons a t ih => by_cases h : p a <;> simp [h, ← ih] <;> omega

theorem find?_map_of_id_pres {α : Type} (l : List α) (idOf : α → Nat) (i : Nat)
    (f : α → α) (hf : ∀ x, idOf (f x) = idOf x) :
    (l.map f).find? (fun x => idOf x == i) = (l.find? (fun x => idOf x == i)).map f := by
  induction l with
  | nil => simp
  | cons a t ih =>
    by_cases h : idOf a == i
    · simp [List.find?, hf, h]
    · simp only [List.map_cons, List.find?, hf, h]
      exact ih

/-! ## C10 — file mode: a missing backing file loads as the empty
collection -/

/-- C10: in file mode each load operation returns the empty collection
when the backing file does not exist (no failure), and that result is
exactly what loading an existing file holding the empty collection
returns — a missing file is indistinguishable from an empty one. -/
theorem c10_missing_file_loads_empty :
    Storage.loadUsersFile none = .ok []
    ∧ Storage.loadPostsFile none = .ok []
    ∧ Storage.loadCommentsFile none = .ok []
    ∧ Storage.loadUsersFile (some (.ok [])) = Storage.loadUsersFile none
    ∧ Storage.loadPostsFile (some (.ok [])) = Storage.loadPostsFile none
    ∧ Storage.loadCommentsFile (some (.ok [])) = Storage.loadCommentsFile none :=
  ⟨rfl, rfl, rfl, rfl, rfl, rfl⟩

/-! ## C3 — post deletion cascades to comments and likes -/

/-- C3: after a successful post deletion (relational variant) no comment
references the post, no post-like references it, and no comment-like
references any comment that was attached to it; in the file-backed
variant no comment references it either (that variant stores no likes). -/
theorem c3_delete_post_cascades (db : Rel.DB) (postId userId : Nat)
    (h : (Rel.deletePost db postId userId).2 = .okNoCount "Post deleted successfully") :
    ((Rel.deletePost db postId userId).1.comments.filter
        (fun c => c.post_id == postId) = []
      ∧ (Rel.deletePost db postId userId).1.post_likes.filter
        (fun l => l.post_id == postId) = []
      ∧ (Rel.deletePost db postId userId).1.comment_likes.filter
        (fun l => (Rel.commentIdsOf db postId).contains l.comment_id) = [])
    ∧ ∀ (st : FileSrv.FState) (pid : Nat),
        (FileSrv.deletePost st pid).1.comments.filter
          (fun c => c.post_id == pid) = [] := by
  constructor
  · unfold Rel.deletePost at *
    by_cases hrows :
        (db.posts.filter (fun p => p.id == postId && p.user_id == userId)).length == 0
    · simp [hrows] at h
    · simp only [hrows, if_neg, Bool.false_eq_true, not_false_iff, if_false]
      refine ⟨filter_not_filter_eq_nil _ _, filter_not_filter_eq_nil _ _, ?_⟩
      exact filter_not_filter_eq_nil _ _
  · intro st pid
    unfold FileSrv.deletePost
    exact filter_not_filter_eq_nil _ _

/-- Witness for C3 at a concrete database: post 1 (author 7) with one
comment (id 10) carrying one comment-like and one post-like; deletion by
the author succeeds and the cascade conclusions evaluate as stated. -/
theorem c3_delete_post_cascades_witness :
    (Rel.deletePost ⟨[7, 2], [⟨1, 7, "hello", 1, 1, 0⟩], [⟨10, 1, 2, "hi", 1, 1⟩],
        [⟨1, 2⟩], [⟨10, 7⟩]⟩ 1 7).2 = .okNoCount "Post deleted successfully"
    ∧ ((Rel.deletePost ⟨[7, 2], [⟨1, 7, "hello", 1, 1, 0⟩], [⟨10, 1, 2, "hi", 1, 1⟩],
        [⟨1, 2⟩], [⟨10, 7⟩]⟩ 1 7).1.comments.filter (fun c => c.post_id == 1) = []
      ∧ (Rel.deletePost ⟨[7, 2], [⟨1, 7, "hello", 1, 1, 0⟩], [⟨10, 1, 2, "hi", 1, 1⟩],
        [⟨1, 2⟩], [⟨10, 7⟩]⟩ 1 7).1.post_likes.filter (fun l => l.post_id == 1) = []
      ∧ (Rel.deletePost ⟨[7, 2], [⟨1, 7, "hello", 1, 1, 0⟩], [⟨10, 1, 2, "hi", 1, 1⟩],
        [⟨1, 2⟩], [⟨10, 7⟩]⟩ 1 7).1.comment_likes.filter
          (fun l => (Rel.commentIdsOf ⟨[7, 2], [⟨1, 7, "hello", 1, 1, 0⟩],
            [⟨10, 1, 2, "hi", 1, 1⟩], [⟨1, 2⟩], [⟨10, 7⟩]⟩ 1).contains l.comment_id) = []) := by
  refine ⟨by decide, ?_⟩
  exact (c3_delete_post_cascades _ 1 7 (by decide)).1

/-! ## C6 — individual comment deletion: exact decrement and frame -/

theorem find?_of_filter_singleton {α : Type} (l : List α) (p : α → Bool) (c : α)
    (h : l.filter p = [c]) : l.find? p = some c := by
  induction l with
  | nil => simp at h
  | cons a t ih =>
    by_cases hp : p a
    · rw [List.filter_cons_of_pos hp] at h
      injection h with h1 h2
      subst h1
      simp [List.find?, hp]
    · rw [List.filter_cons_of_neg (by simp [hp])] at h
      have hpa : p a = false := by simpa using hp
      simp [List.find?, hpa, ih h]

theorem filter_and_of_filter_singleton {α : Type} (l : List α) (p q : α → Bool) (c : α)
    (h : l.filter p = [c]) (hq : q c = true) :
    l.filter (fun x => p x && q x) = [c] := by
  induction l with
  | nil => simp at h
  | cons a t ih =>
    by_cases hp : p a
    · rw [List.filter_cons_of_pos hp] at h
      injection h with h1 h2
      subst h1
      have ht : t.filter (fun x => p x && q x) = [] := by
        rw [List.filter_eq_nil_iff] at h2 ⊢
        intro x hx
        simp [h2 x hx]
      rw [List.filter_cons_of_pos (by simp [hp, hq]), ht]
    · rw [List.filter_cons_of_neg (by simp [hp])] at h
      rw [List.filter_cons_of_neg (by simp [hp])]
      exact ih h

/-- C6 counterexample: the file-backed store enforces no uniqueness on
comment ids (they are `Date.now()` values), and its delete filters by
id — so with two distinct comments sharing id 10, deleting one also
removes the other, which the claim requires to stay untouched. -/
theorem c6_delete_comment_counterexample :
    FileSrv.deleteComment
        ⟨[], [⟨1, "n", "o@x", "p", [], 0⟩],
         [⟨10, 1, "n", "o@x", "a", [], 0⟩, ⟨10, 1, "n", "o@x", "b", [], 1⟩]⟩
        10 (some "o@x") false
      = (⟨[], [⟨1, "n", "o@x", "p", [], 0⟩], []⟩, .ok "Comment deleted successfully")
    ∧ (⟨10, 1, "n", "o@x", "b", [], 1⟩ : FileSrv.FComment)
      ≠ ⟨10, 1, "n", "o@x", "a", [], 0⟩ := by
  decide

/-- C6 (amended): the relational comment delete behaves exactly as
claimed — deleting the unique comment `c` with `id = commentId`
(authored by the caller) succeeds, removes exactly that comment (length
drops by one, every other comment is kept verbatim, nothing new
appears), decrements the parent post's `comments_count` by exactly 1,
and leaves every other post unchanged.  The file-backed comment delete
removes every comment whose id equals the target's; when that id is
unique in the store it removes exactly `c`, keeps every other comment,
leaves the posts array untouched (that variant stores no
`comments_count`), and the parent's derived comment count — the
comments attached to it at read time — drops by exactly 1. -/
theorem c6_delete_comment_frame :
    (∀ (db : Rel.DB) (commentId userId : Nat) (c : Rel.Comment),
      db.comments.filter (fun x => x.id == commentId) = [c] →
      c.user_id = userId →
      (Rel.deleteComment db commentId userId).2 = .okNoCount "Comment deleted successfully"
      ∧ (Rel.deleteComment db commentId userId).1.comments.length + 1 = db.comments.length
      ∧ c ∉ (Rel.deleteComment db commentId userId).1.comments
      ∧ (∀ x ∈ db.comments, x.id ≠ commentId →
          x ∈ (Rel.deleteComment db commentId userId).1.comments)
      ∧ (∀ x ∈ (Rel.deleteComment db commentId userId).1.comments, x ∈ db.comments)
      ∧ (∀ p ∈ db.posts, p.id = c.post_id →
          { p with comments_count := p.comments_count - 1 }
            ∈ (Rel.deleteComment db commentId userId).1.posts)
      ∧ (∀ p ∈ db.posts, p.id ≠ c.post_id →
          p ∈ (Rel.deleteComment db commentId userId).1.posts))
    ∧ (∀ (st : FileSrv.FState) (commentId : Nat) (e : String) (c : FileSrv.FComment),
      st.comments.filter (fun x => x.id == commentId) = [c] →
      c.user_email = e →
      FileSrv.deleteComment st commentId (some e) false
        = ({ st with comments := st.comments.filter (fun x => !(x.id == commentId)) },
           .ok "Comment deleted successfully")
      ∧ (st.comments.filter (fun x => !(x.id == commentId))).length + 1
        = st.comments.length
      ∧ c ∉ st.comments.filter (fun x => !(x.id == commentId))
      ∧ (∀ x ∈ st.comments, x.id ≠ commentId →
          x ∈ st.comments.filter (fun y => !(y.id == commentId)))
      ∧ ((st.comments.filter (fun x => !(x.id == commentId))).filter
            (fun x => x.post_id == c.post_id)).length + 1
        = (st.comments.filter (fun x => x.post_id == c.post_id)).length) := by
  constructor
  · intro db commentId userId c hc huser
    have hcmem : c ∈ db.comments.filter (fun x => x.id == commentId) := by
      rw [hc]; exact List.mem_singleton_self c
    have hcdb : c ∈ db.comments := (List.mem_filter.mp hcmem).1
    have hcid : (c.id == commentId) = true := (List.mem_filter.mp hcmem).2
    have hrows : db.comments.filter (fun x => x.id == commentId && x.user_id == userId)
        = [c] := by
      have hcomm : db.comments.filter (fun x => x.id == commentId && x.user_id == userId)
          = (db.comments.filter (fun x => x.id == commentId)).filter
              (fun x => x.user_id == userId) := by
        rw [List.filter_filter]
        simp only [Bool.and_comm]
      rw [hcomm, hc]
      simp [huser]
    simp only [Rel.deleteComment, hrows]
    refine ⟨by trivial, ?_, ?_, ?_, ?_, ?_, ?_⟩
    · have := length_filter_not_add db.comments (fun x => x.id == commentId)
      rw [hc] at this
      simpa using this
    · intro hmem
      have := (List.mem_filter.mp hmem).2
      simp [hcid] at this
    · intro x hx hne
      exact List.mem_filter.mpr ⟨hx, by simp [hne]⟩
    · intro x hx
      exact (List.mem_filter.mp hx).1
    · intro p hp hid
      exact List.mem_map.mpr ⟨p, hp, by simp [hid]⟩
    · intro p hp hid
      refine List.mem_map.mpr ⟨p, hp, by simp [hid]⟩
  · intro st commentId e c hc howner
    have hcmem : c ∈ st.comments.filter (fun x => x.id == commentId) := by
      rw [hc]; exact List.mem_singleton_self c
    have hcid : (c.id == commentId) = true := (List.mem_filter.mp hcmem).2
    have hfind : st.comments.find? (fun x => x.id == commentId) = some c :=
      find?_of_filter_singleton _ _ _ hc
    refine ⟨?_, ?_, ?_, ?_, ?_⟩
    · simp [FileSrv.deleteComment, hfind, howner]
    · have := length_filter_not_add st.comments (fun x => x.id == commentId)
      rw [hc] at this
      simpa using this
    · intro hmem
      have := (List.mem_filter.mp hmem).2
      simp [hcid] at this
    · intro x hx hne
      exact List.mem_filter.mpr ⟨hx, by simp [hne]⟩
    · have hcomm : (st.comments.filter (fun x => !(x.id == commentId))).filter
            (fun x => x.post_id == c.post_id)
          = (st.comments.filter (fun x => x.post_id == c.post_id)).filter
            (fun x => !(x.id == commentId)) := by
        rw [List.filter_filter, List.filter_filter]
        simp only [Bool.and_comm]
      have hsing : (st.comments.filter (fun x => x.post_id == c.post_id)).filter
          (fun x => x.id == commentId) = [c] := by
        rw [List.filter_filter]
        exact filter_and_of_filter_singleton st.comments _ _ c hc (by simp)
      have hlen := length_filter_not_add
        (st.comments.filter (fun x => x.post_id == c.post_id))
        (fun x => x.id == commentId)
      rw [hsing] at hlen
      rw [hcomm]
      simpa using hlen

/-- Witness for C6 (amended): post 1 holds comments 10 and 11; user 2
deletes relational comment 10 with the sibling surviving, and the
file-backed owner delete of comment 10 leaves the sibling comment 11
and the posts array intact. -/
theorem c6_delete_comment_frame_witness :
    (Rel.deleteComment ⟨[7, 2], [⟨1, 7, "p", 0, 2, 0⟩],
        [⟨10, 1, 2, "hi", 0, 0⟩, ⟨11, 1, 7, "yo", 0, 0⟩], [], []⟩ 10 2).2
      = .okNoCount "Comment deleted successfully"
    ∧ (Rel.deleteComment ⟨[7, 2], [⟨1, 7, "p", 0, 2, 0⟩],
        [⟨10, 1, 2, "hi", 0, 0⟩, ⟨11, 1, 7, "yo", 0, 0⟩], [], []⟩ 10 2).1.comments.length + 1
      = ([⟨10, 1, 2, "hi", 0, 0⟩, ⟨11, 1, 7, "yo", 0, 0⟩] : List Rel.Comment).length
    ∧ FileSrv.deleteComment ⟨[], [⟨1, "n", "o@x", "p", [], 0⟩],
        [⟨10, 1, "n", "o@x", "a", [], 0⟩, ⟨11, 1, "m", "m@x", "b", [], 1⟩]⟩
        10 (some "o@x") false
      = (⟨[], [⟨1, "n", "o@x", "p", [], 0⟩], [⟨11, 1, "m", "m@x", "b", [], 1⟩]⟩,
         .ok "Comment deleted successfully") := by
  have h := c6_delete_comment_frame.1
    ⟨[7, 2], [⟨1, 7, "p", 0, 2, 0⟩],
      [⟨10, 1, 2, "hi", 0, 0⟩, ⟨11, 1, 7, "yo", 0, 0⟩], [], []⟩ 10 2
    ⟨10, 1, 2, "hi", 0, 0⟩ (by decide) rfl
  have hf := c6_delete_comment_frame.2
    ⟨[], [⟨1, "n", "o@x", "p", [], 0⟩],
      [⟨10, 1, "n", "o@x", "a", [], 0⟩, ⟨11, 1, "m", "m@x", "b", [], 1⟩]⟩
    10 "o@x" ⟨10, 1, "n", "o@x", "a", [], 0⟩ (by decide) rfl
  exact ⟨h.1, h.2.1, hf.1.trans (by decide)⟩

/-! ## C1 — like toggle: counts and state as claimed, but the message
strings are subject-prefixed -/

/-- C1 counterexample: on a fresh pair the post like-toggle answers with
message `"Post liked"`, not the claimed bare `"liked"`. -/
theorem c1_like_toggle_counterexample :
    (Rel.togglePostLike ⟨[2], [⟨1, 7, "x", 0, 0, 0⟩], [], [], []⟩ 1 2).2
      = .ok "Post liked" 1
    ∧ "Post liked" ≠ "liked" := by
  decide

/-- C1 (amended): for an existing subject, when a like for the pair
exists the toggle deletes it, decrements the subject's `likes_count` by
exactly 1 and returns the new count with message `"Post unliked"`
(resp. `"Comment unliked"`); when none exists (and the acting user is a
real user, so the foreign key holds) it inserts the like, increments the
count by exactly 1 and returns the new count with message `"Post liked"`
(resp. `"Comment liked"`).  Identical to the claim except that each
message is prefixed by the subject kind. -/
theorem c1_like_toggle_amended :
    (∀ (db : Rel.DB) (postId userId : Nat) (p : Rel.Post),
      db.posts.find? (fun q => q.id == postId) = some p →
      (Rel.postLikeRows db postId userId ≠ [] →
        Rel.togglePostLike db postId userId =
          ({ db with
              post_likes := db.post_likes.filter
                (fun l => !(l.post_id == postId && l.user_id == userId)),
              posts := db.posts.map (fun q =>
                if q.id == postId then { q with likes_count := q.likes_count - 1 }
                else q) },
           .ok "Post unliked" (p.likes_count - 1)))
      ∧ (Rel.postLikeRows db postId userId = [] → userId ∈ db.users →
        Rel.togglePostLike db postId userId =
          ({ db with
              post_likes := db.post_likes ++ [⟨postId, userId⟩],
              posts := db.posts.map (fun q =>
                if q.id == postId then { q with likes_count := q.likes_count + 1 }
                else q) },
           .ok "Post liked" (p.likes_count + 1))))
    ∧ (∀ (db : Rel.DB) (commentId userId : Nat) (c : Rel.Comment),
      db.comments.find? (fun q => q.id == commentId) = some c →
      (Rel.commentLikeRows db commentId userId ≠ [] →
        Rel.toggleCommentLike db commentId userId =
          ({ db with
              comment_likes := db.comment_likes.filter
                (fun l => !(l.comment_id == commentId && l.user_id == userId)),
              comments := db.comments.map (fun q =>
                if q.id == commentId then { q with likes_count := q.likes_count - 1 }
                else q) },
           .ok "Comment unliked" (c.likes_count - 1)))
      ∧ (Rel.commentLikeRows db commentId userId = [] → userId ∈ db.users →
        Rel.toggleCommentLike db commentId userId =
          ({ db with
              comment_likes := db.comment_likes ++ [⟨commentId, userId⟩],
              comments := db.comments.map (fun q =>
                if q.id == commentId then { q with likes_count := q.likes_count + 1 }
                else q) },
           .ok "Comment liked" (c.likes_count + 1)))) := by
  constructor
  · intro db postId userId p hfind
    have hpid : (p.id == postId) = true := by
      have := List.find?_some hfind
      simpa using this
    have hpid' : p.id = postId := by simpa using hpid
    have hidpres : ∀ x : Rel.Post,
        Rel.Post.id (if x.id == postId then { x with likes_count := x.likes_count - 1 }
          else x) = Rel.Post.id x := by
      intro x; by_cases h : x.id == postId <;> simp [h]
    have hidpres' : ∀ x : Rel.Post,
        Rel.Post.id (if x.id == postId then { x with likes_count := x.likes_count + 1 }
          else x) = Rel.Post.id x := by
      intro x; by_cases h : x.id == postId <;> simp [h]
    constructor
    · intro hne
      have hlen : (Rel.postLikeRows db postId userId).length > 0 :=
        List.length_pos.mpr hne
      simp only [Rel.togglePostLike]
      rw [if_pos hlen]
      rw [find?_map_of_id_pres db.posts Rel.Post.id postId _ hidpres, hfind]
      simp [hpid']
    · intro hnil hu
      have hlen : ¬ (Rel.postLikeRows db postId userId).length > 0 := by
        rw [hnil]; simp
      have hany : db.posts.any (fun q => q.id == postId) = true :=
        any_of_find?_some hfind
      have huany : db.users.any (fun u => u == userId) = true :=
        List.any_eq_true.mpr ⟨userId, hu, by simp⟩
      simp only [Rel.togglePostLike]
      rw [if_neg hlen, if_pos (by rw [hany, huany]; rfl)]
      rw [find?_map_of_id_pres db.posts Rel.Post.id postId _ hidpres', hfind]
      simp [hpid']
  · intro db commentId userId c hfind
    have hcid : (c.id == commentId) = true := by
      have := List.find?_some hfind
      simpa using this
    have hcid' : c.id = commentId := by simpa using hcid
    have hidpres : ∀ x : Rel.Comment,
        Rel.Comment.id (if x.id == commentId then { x with likes_count := x.likes_count - 1 }
          else x) = Rel.Comment.id x := by
      intro x; by_cases h : x.id == commentId <;> simp [h]
    have hidpres' : ∀ x : Rel.Comment,
        Rel.Comment.id (if x.id == commentId then { x with likes_count := x.likes_count + 1 }
          else x) = Rel.Comment.id x := by
      intro x; by_cases h : x.id == commentId <;> simp [h]
    constructor
    · intro hne
      have hlen : (Rel.commentLikeRows db commentId userId).length > 0 :=
        List.length_pos.mpr hne
      simp only [Rel.toggleCommentLike]
      rw [if_pos hlen]
      rw [find?_map_of_id_pres db.comments Rel.Comment.id commentId _ hidpres, hfind]
      simp [hcid']
    · intro hnil hu
      have hlen : ¬ (Rel.commentLikeRows db commentId userId).length > 0 := by
        rw [hnil]; simp
      have hany : db.comments.any (fun q => q.id == commentId) = true :=
        any_of_find?_some hfind
      have huany : db.users.any (fun u => u == userId) = true :=
        List.any_eq_true.mpr ⟨userId, hu, by simp⟩
      simp only [Rel.toggleCommentLike]
      rw [if_neg hlen, if_pos (by rw [hany, huany]; rfl)]
      rw [find?_map_of_id_pres db.comments Rel.Comment.id commentId _ hidpres', hfind]
      simp [hcid']

/-- Witness for C1 (amended): a concrete unlike of post 1 by user 2 and
a concrete like of comment 5 by user 2, evaluated end to end. -/
theorem c1_like_toggle_amended_witness :
    Rel.togglePostLike ⟨[2], [⟨1, 7, "x", 1, 0, 0⟩], [], [⟨1, 2⟩], []⟩ 1 2
      = (⟨[2], [⟨1, 7, "x", 0, 0, 0⟩], [], [], []⟩, .ok "Post unliked" 0)
    ∧ Rel.toggleCommentLike ⟨[2], [], [⟨5, 1, 7, "c", 0, 0⟩], [], []⟩ 5 2
      = (⟨[2], [], [⟨5, 1, 7, "c", 1, 0⟩], [], [⟨5, 2⟩]⟩, .ok "Comment liked" 1) := by
  constructor
  · have h := (c1_like_toggle_amended.1 ⟨[2], [⟨1, 7, "x", 1, 0, 0⟩], [], [⟨1, 2⟩], []⟩
      1 2 ⟨1, 7, "x", 1, 0, 0⟩ (by decide)).1 (by decide)
    exact h.trans (by decide)
  · have h := (c1_like_toggle_amended.2 ⟨[2], [], [⟨5, 1, 7, "c", 0, 0⟩], [], []⟩
      5 2 ⟨5, 1, 7, "c", 0, 0⟩ (by decide)).2 (by decide) (by decide)
    exact h.trans (by decide)

/-! ## C8 — like toggle on an absent subject -/

/-- C8 counterexample: post 5 does not exist in this database, yet the
like toggle does not answer 404 — the unguarded `INSERT` hits the
foreign key and the handler's catch returns a 500 (`serverError`). -/
theorem c8_like_missing_subject_counterexample :
    (Rel.togglePostLike ⟨[1], [], [], [], []⟩ 5 1)
      = (⟨[1], [], [], [], []⟩, .serverError)
    ∧ ([] : List Rel.Post).all (fun p => !(p.id == 5)) = true := by
  decide

/-- C8 (amended): a like toggle on a post (resp. comment) id that does
not exist — in a database satisfying the foreign-key invariant that
every like row references an existing subject — leaves the state
unchanged and fails with a 500 server error (the driver's foreign-key
violation caught by the handler), not with a 404 `SubjectNotFound`. -/
theorem c8_like_missing_subject_amended
    (db : Rel.DB) (postId commentId userId : Nat)
    (hnopost : ∀ p ∈ db.posts, p.id ≠ postId)
    (hnoplike : ∀ l ∈ db.post_likes, l.post_id ≠ postId)
    (hnocomment : ∀ c ∈ db.comments, c.id ≠ commentId)
    (hnoclike : ∀ l ∈ db.comment_likes, l.comment_id ≠ commentId) :
    Rel.togglePostLike db postId userId = (db, .serverError)
    ∧ Rel.toggleCommentLike db commentId userId = (db, .serverError) := by
  constructor
  · have hrows : Rel.postLikeRows db postId userId = [] := by
      rw [Rel.postLikeRows, List.filter_eq_nil_iff]
      intro l hl
      simp [hnoplike l hl]
    have hany : db.posts.any (fun p => p.id == postId) = false := by
      rw [List.any_eq_false]
      intro p hp
      simp [hnopost p hp]
    simp only [Rel.togglePostLike, hrows, hany]
    simp
  · have hrows : Rel.commentLikeRows db commentId userId = [] := by
      rw [Rel.commentLikeRows, List.filter_eq_nil_iff]
      intro l hl
      simp [hnoclike l hl]
    have hany : db.comments.any (fun c => c.id == commentId) = false := by
      rw [List.any_eq_false]
      intro c hc
      simp [hnocomment c hc]
    simp only [Rel.toggleCommentLike, hrows, hany]
    simp

/-- Witness for C8 (amended): a database holding post 1 and its like,
toggled at the absent ids 5 (post) and 6 (comment). -/
theorem c8_like_missing_subject_amended_witness :
    Rel.togglePostLike ⟨[1, 7], [⟨1, 7, "x", 1, 0, 0⟩], [], [⟨1, 1⟩], []⟩ 5 1
      = (⟨[1, 7], [⟨1, 7, "x", 1, 0, 0⟩], [], [⟨1, 1⟩], []⟩, .serverError)
    ∧ Rel.toggleCommentLike ⟨[1, 7], [⟨1, 7, "x", 1, 0, 0⟩], [], [⟨1, 1⟩], []⟩ 6 1
      = (⟨[1, 7], [⟨1, 7, "x", 1, 0, 0⟩], [], [⟨1, 1⟩], []⟩, .serverError) :=
  c8_like_missing_subject_amended ⟨[1, 7], [⟨1, 7, "x", 1, 0, 0⟩], [], [⟨1, 1⟩], []⟩
    5 6 1 (by decide) (by decide) (by decide) (by decide)

/-! ## C4 — comment creation and the parent-post check -/

/-- C4 counterexample: the file-backed server creates a comment for
post id 42 although the state holds no post at all — no 404, and the
comment is inserted. -/
theorem c4_create_comment_counterexample :
    FileSrv.createComment ⟨[], [], []⟩ 42 (some "hi") [] none none 100 5
      = (⟨[], [], [⟨100, 42, "Anonymous User", "anonymous@example.com", "hi", [], 5⟩]⟩,
         .ok "Comment added successfully") := by
  decide

/-- C4 (amended): the relational comment route behaves as the claim
states — a missing parent post yields 404 with no state change, and a
successful creation appends exactly one comment carrying the parent's
id and increments the parent's `comments_count` by exactly 1.  The
file-backed server, however, performs no parent-existence check: the
same request against a state without the post still succeeds and
appends the comment (that variant maintains no `comments_count`). -/
theorem c4_create_comment_amended :
    (∀ (db : Rel.DB) (postId userId : Nat) (s : String) (newId now : Nat),
      0 < (jsTrim s).length →
      (∀ p ∈ db.posts, p.id ≠ postId) →
      Rel.createComment db postId userId (some s) newId now
        = (db, .notFound "Post not found"))
    ∧ (∀ (db : Rel.DB) (postId userId : Nat) (s : String) (newId now : Nat)
        (p : Rel.Post),
      0 < (jsTrim s).length →
      p ∈ db.posts → p.id = postId →
      userId ∈ db.users →
      Rel.createComment db postId userId (some s) newId now
        = ({ db with
              comments := db.comments ++ [⟨newId, postId, userId, jsTrim s, 0, now⟩],
              posts := db.posts.map (fun q =>
                if q.id == postId then
                  { q with comments_count := q.comments_count + 1 }
                else q) },
           .okNoCount "Comment created successfully"))
    ∧ (∀ (st : FileSrv.FState) (postId : Nat) (content : Option String)
        (attachments : List String) (userName userEmail : Option String)
        (newId now : Nat),
      FileSrv.contentTruthy content = true ∨ attachments ≠ [] →
      (∀ email, userEmail = some email →
        ∀ u, FileSrv.lookupUser st.users email = some u → u.banned = false) →
      (∀ p ∈ st.posts, p.id ≠ postId) →
      FileSrv.createComment st postId content attachments userName userEmail newId now
        = ({ st with comments := st.comments ++
              [⟨newId, postId, userName.getD "Anonymous User",
                userEmail.getD "anonymous@example.com", content.getD "",
                attachments, now⟩] },
           .ok "Comment added successfully")) := by
  refine ⟨?_, ?_, ?_⟩
  · intro db postId userId s newId now hlen hnopost
    have htrim : ((jsTrim s).length == 0) = false := by
      simp only [beq_eq_false_iff_ne]; omega
    have hany : db.posts.any (fun p => p.id == postId) = false := by
      rw [List.any_eq_false]
      intro p hp
      simp [hnopost p hp]
    simp [Rel.createComment, htrim, hany]
  · intro db postId userId s newId now p hlen hp hpid hu
    have htrim : ((jsTrim s).length == 0) = false := by
      simp only [beq_eq_false_iff_ne]; omega
    have hany : db.posts.any (fun q => q.id == postId) = true :=
      List.any_eq_true.mpr ⟨p, hp, by simp [hpid]⟩
    have huany : db.users.any (fun u => u == userId) = true :=
      List.any_eq_true.mpr ⟨userId, hu, by simp⟩
    simp [Rel.createComment, htrim, hany, huany]
  · intro st postId content attachments userName userEmail newId now hval hban hnopost
    have hcond : (!(FileSrv.contentTruthy content) && attachments.length == 0) = false := by
      rcases hval with h | h
      · simp [h]
      · have : attachments.length ≠ 0 := by
          intro hlen; exact h (List.length_eq_zero.mp hlen)
        simp [this]
    cases userEmail with
    | none => simp [FileSrv.createComment, hcond]
    | some email =>
      cases hlk : FileSrv.lookupUser st.users email with
      | none => simp [FileSrv.createComment, hcond, hlk]
      | some u =>
        have hb := hban email rfl u hlk
        simp [FileSrv.createComment, hcond, hlk, hb]

/-- Witness for C4 (amended): concrete runs of all three conjuncts —
404 at a missing relational parent, a successful relational creation
under post 1, and the file server accepting a comment for an absent
post 9. -/
theorem c4_create_comment_amended_witness :
    Rel.createComment ⟨[2], [⟨1, 7, "p", 0, 0, 0⟩], [], [], []⟩ 3 2 (some "hi") 50 6
      = (⟨[2], [⟨1, 7, "p", 0, 0, 0⟩], [], [], []⟩, .notFound "Post not found")
    ∧ Rel.createComment ⟨[2], [⟨1, 7, "p", 0, 0, 0⟩], [], [], []⟩ 1 2 (some " hi ") 50 6
      = (⟨[2], [⟨1, 7, "p", 0, 1, 0⟩], [⟨50, 1, 2, "hi", 0, 6⟩], [], []⟩,
         .okNoCount "Comment created successfully")
    ∧ FileSrv.createComment ⟨[("a@b.c", ⟨false⟩)], [⟨1, "n", "a@b.c", "x", [], 0⟩], []⟩
        9 (some "yo") [] (some "N") (some "a@b.c") 77 8
      = (⟨[("a@b.c", ⟨false⟩)], [⟨1, "n", "a@b.c", "x", [], 0⟩],
          [⟨77, 9, "N", "a@b.c", "yo", [], 8⟩]⟩, .ok "Comment added successfully") := by
  refine ⟨?_, ?_, ?_⟩
  · exact c4_create_comment_amended.1 _ 3 2 "hi" 50 6 (by decide) (by decide)
  · have h := c4_create_comment_amended.2.1 ⟨[2], [⟨1, 7, "p", 0, 0, 0⟩], [], [], []⟩
      1 2 " hi " 50 6 ⟨1, 7, "p", 0, 0, 0⟩ (by decide) (by decide) rfl (by decide)
    exact h.trans (by decide)
  · have h := c4_create_comment_amended.2.2 ⟨[("a@b.c", ⟨false⟩)],
      [⟨1, "n", "a@b.c", "x", [], 0⟩], []⟩ 9 (some "yo") [] (some "N") (some "a@b.c") 77 8
      (Or.inl (by decide))
      (by
        intro email he u hlk
        cases he
        simp [FileSrv.lookupUser, List.find?] at hlk
        subst hlk
        rfl)
      (by decide)
    exact h.trans (by decide)

/-! ## C5 — delete authorization -/

/-- C5 counterexample: post 1 exists (author 7) and user 9 — neither
author nor any admin — requests deletion; the relational route answers
404, not the 403 the claim requires for an existing subject. -/
theorem c5_delete_auth_counterexample :
    Rel.deletePost ⟨[7, 9], [⟨1, 7, "p", 0, 0, 0⟩], [], [], []⟩ 1 9
      = (⟨[7, 9], [⟨1, 7, "p", 0, 0, 0⟩], [], [], []⟩,
         .notFound "Post not found or not authorized")
    ∧ ([⟨1, 7, "p", 0, 0, 0⟩] : List Rel.Post).any (fun p => p.id == 1) = true := by
  decide

/-- C5 (amended): the relational delete routes recognise no admin and
conflate "absent" with "not the author": any request whose
`(id, user_id)` lookup is empty — a missing subject or any non-author
caller, admins included — gets 404 and deletes nothing, while an author
on an existing subject gets 200.  The file-backed comment delete follows
the claim (404 when absent, 403 for a caller that is neither owner nor
admin, 200 otherwise), and the file-backed post delete enforces nothing:
it returns 200 unconditionally. -/
theorem c5_delete_auth_amended :
    (∀ (db : Rel.DB) (postId userId : Nat),
      db.posts.filter (fun p => p.id == postId && p.user_id == userId) = [] →
      Rel.deletePost db postId userId = (db, .notFound "Post not found or not authorized"))
    ∧ (∀ (db : Rel.DB) (postId userId : Nat),
      db.posts.filter (fun p => p.id == postId && p.user_id == userId) ≠ [] →
      (Rel.deletePost db postId userId).2 = .okNoCount "Post deleted successfully")
    ∧ (∀ (db : Rel.DB) (commentId userId : Nat),
      db.comments.filter (fun c => c.id == commentId && c.user_id == userId) = [] →
      Rel.deleteComment db commentId userId
        = (db, .notFound "Comment not found or not authorized"))
    ∧ (∀ (db : Rel.DB) (commentId userId : Nat) (c : Rel.Comment) (rest : List Rel.Comment),
      db.comments.filter (fun x => x.id == commentId && x.user_id == userId) = c :: rest →
      (Rel.deleteComment db commentId userId).2 = .okNoCount "Comment deleted successfully")
    ∧ (∀ (st : FileSrv.FState) (postId : Nat),
      (FileSrv.deletePost st postId).2 = .ok "Post deleted successfully")
    ∧ (∀ (st : FileSrv.FState) (commentId : Nat) (email : Option String) (isAdmin : Bool),
      st.comments.find? (fun c => c.id == commentId) = none →
      FileSrv.deleteComment st commentId email isAdmin = (st, .notFound "Comment not found"))
    ∧ (∀ (st : FileSrv.FState) (commentId : Nat) (email : Option String)
        (target : FileSrv.FComment),
      st.comments.find? (fun c => c.id == commentId) = some target →
      (∀ e, email = some e → target.user_email ≠ e ∧ e ≠ "admin@startup.com") →
      FileSrv.deleteComment st commentId email false
        = (st, .forbidden "Not allowed to delete this comment"))
    ∧ (∀ (st : FileSrv.FState) (commentId : Nat) (e : String)
        (target : FileSrv.FComment),
      st.comments.find? (fun c => c.id == commentId) = some target →
      target.user_email = e →
      FileSrv.deleteComment st commentId (some e) false
        = ({ st with comments := st.comments.filter (fun c => !(c.id == commentId)) },
           .ok "Comment deleted successfully"))
    ∧ (∀ (st : FileSrv.FState) (commentId : Nat) (email : Option String)
        (target : FileSrv.FComment),
      st.comments.find? (fun c => c.id == commentId) = some target →
      FileSrv.deleteComment st commentId email true
        = ({ st with comments := st.comments.filter (fun c => !(c.id == commentId)) },
           .ok "Comment deleted successfully"))
    ∧ (∀ (st : FileSrv.FState) (commentId : Nat) (target : FileSrv.FComment),
      st.comments.find? (fun c => c.id == commentId) = some target →
      FileSrv.deleteComment st commentId (some "admin@startup.com") false
        = ({ st with comments := st.comments.filter (fun c => !(c.id == commentId)) },
           .ok "Comment deleted successfully")) := by
  refine ⟨?_, ?_, ?_, ?_, ?_, ?_, ?_, ?_, ?_, ?_⟩
  · intro db postId userId h
    simp [Rel.deletePost, h]
  · intro db postId userId h
    have hlen : (db.posts.filter (fun p => p.id == postId && p.user_id == userId)).length ≠ 0 :=
      fun hl => h (List.length_eq_zero.mp hl)
    have hfalse : ((db.posts.filter
        (fun p => p.id == postId && p.user_id == userId)).length == 0) = false :=
      beq_eq_false_iff_ne.mpr hlen
    simp [Rel.deletePost, hfalse]
  · intro db commentId userId h
    simp [Rel.deleteComment, h]
  · intro db commentId userId c rest h
    simp [Rel.deleteComment, h]
  · intro st postId
    rfl
  · intro st commentId email isAdmin h
    simp [FileSrv.deleteComment, h]
  · intro st commentId email target hfind hmail
    cases email with
    | none => simp [FileSrv.deleteComment, hfind]
    | some e =>
      have h1 := (hmail e rfl).1
      have h2 := (hmail e rfl).2
      simp [FileSrv.deleteComment, hfind, h1, h2]
  · intro st commentId e target hfind howner
    simp [FileSrv.deleteComment, hfind, howner]
  · intro st commentId email target hfind
    simp [FileSrv.deleteComment, hfind]
  · intro st commentId target hfind
    simp [FileSrv.deleteComment, hfind]

/-- Witness for C5 (amended): user 9 denied (404) on the relational
post of author 7; author 7 succeeding; the file server deleting a
never-existing post with 200; and a stranger receiving 403 on the
file-backed comment. -/
theorem c5_delete_auth_amended_witness :
    Rel.deletePost ⟨[7, 9], [⟨1, 7, "p", 0, 0, 0⟩], [], [], []⟩ 1 9
      = (⟨[7, 9], [⟨1, 7, "p", 0, 0, 0⟩], [], [], []⟩,
         .notFound "Post not found or not authorized")
    ∧ (Rel.deletePost ⟨[7, 9], [⟨1, 7, "p", 0, 0, 0⟩], [], [], []⟩ 1 7).2
      = .okNoCount "Post deleted successfully"
    ∧ (FileSrv.deletePost ⟨[], [], []⟩ 123).2 = .ok "Post deleted successfully"
    ∧ FileSrv.deleteComment ⟨[], [], [⟨10, 1, "n", "owner@x.y", "c", [], 0⟩]⟩ 10
        (some "other@x.y") false
      = (⟨[], [], [⟨10, 1, "n", "owner@x.y", "c", [], 0⟩]⟩,
         .forbidden "Not allowed to delete this comment")
    ∧ FileSrv.deleteComment ⟨[], [], [⟨10, 1, "n", "owner@x.y", "c", [], 0⟩]⟩ 10
        (some "other@x.y") true
      = (⟨[], [], []⟩, .ok "Comment deleted successfully")
    ∧ FileSrv.deleteComment ⟨[], [], [⟨10, 1, "n", "owner@x.y", "c", [], 0⟩]⟩ 10
        (some "admin@startup.com") false
      = (⟨[], [], []⟩, .ok "Comment deleted successfully") := by
  refine ⟨?_, ?_, ?_, ?_, ?_, ?_⟩
  · exact c5_delete_auth_amended.1 _ 1 9 (by decide)
  · exact c5_delete_auth_amended.2.1 _ 1 7 (by decide)
  · exact c5_delete_auth_amended.2.2.2.2.1 ⟨[], [], []⟩ 123
  · exact c5_delete_auth_amended.2.2.2.2.2.2.1 _ 10 (some "other@x.y")
      ⟨10, 1, "n", "owner@x.y", "c", [], 0⟩ (by decide)
      (by intro e he; cases he; exact ⟨by decide, by decide⟩)
  · have h := c5_delete_auth_amended.2.2.2.2.2.2.2.2.1
      ⟨[], [], [⟨10, 1, "n", "owner@x.y", "c", [], 0⟩]⟩ 10 (some "other@x.y")
      ⟨10, 1, "n", "owner@x.y", "c", [], 0⟩ (by decide)
    exact h.trans (by decide)
  · have h := c5_delete_auth_amended.2.2.2.2.2.2.2.2.2
      ⟨[], [], [⟨10, 1, "n", "owner@x.y", "c", [], 0⟩]⟩ 10
      ⟨10, 1, "n", "owner@x.y", "c", [], 0⟩ (by decide)
    exact h.trans (by decide)

/-! ## C7 — creation validation of content and attachments -/

/-- C7 counterexample: a post whose content is a single space — empty
after trimming — with no attachments is accepted by the file-backed
server and stored, although the claim requires a 400 `InvalidContent`
failure with no state change. -/
theorem c7_validation_counterexample :
    FileSrv.createPost ⟨[], [], []⟩ (some " ") [] none none 1 0
      = (⟨[], [⟨1, "Anonymous User", "anonymous@example.com", " ", [], 0⟩], []⟩,
         .ok "Post created successfully")
    ∧ jsTrim " " = "" := by
  decide

/-- C7 (amended): the file-backed creation endpoints test JavaScript
truthiness of the raw content (no trimming) — they reject with 400 and
no state change exactly when the content field is absent or the empty
string AND the attachment list is empty, and a request passing that
test (in particular whitespace-only content) is never rejected as
invalid content.  The relational comment route instead rejects exactly
the requests whose trimmed content is empty, with no state change, and
consults no attachment list at all. -/
theorem c7_validation_amended :
    (∀ (st : FileSrv.FState) (content : Option String) (attachments : List String)
        (userName userEmail : Option String) (newId now : Nat),
      FileSrv.contentTruthy content = false → attachments = [] →
      FileSrv.createPost st content attachments userName userEmail newId now
        = (st, .badRequest "Post content or attachments required"))
    ∧ (∀ (st : FileSrv.FState) (content : Option String) (attachments : List String)
        (userName userEmail : Option String) (newId now : Nat),
      FileSrv.contentTruthy content = true ∨ attachments ≠ [] →
      ∀ m, (FileSrv.createPost st content attachments userName userEmail newId now).2
        ≠ .badRequest m)
    ∧ (∀ (st : FileSrv.FState) (postId : Nat) (content : Option String)
        (attachments : List String) (userName userEmail : Option String) (newId now : Nat),
      FileSrv.contentTruthy content = false → attachments = [] →
      FileSrv.createComment st postId content attachments userName userEmail newId now
        = (st, .badRequest "Comment content or attachments required"))
    ∧ (∀ (st : FileSrv.FState) (postId : Nat) (content : Option String)
        (attachments : List String) (userName userEmail : Option String) (newId now : Nat),
      FileSrv.contentTruthy content = true ∨ attachments ≠ [] →
      ∀ m, (FileSrv.createComment st postId content attachments userName userEmail newId now).2
        ≠ .badRequest m)
    ∧ (∀ (db : Rel.DB) (postId userId : Nat) (s : String) (newId now : Nat),
      (jsTrim s).length = 0 →
      Rel.createComment db postId userId (some s) newId now
        = (db, .badRequest "Comment content is required"))
    ∧ (∀ (db : Rel.DB) (postId userId : Nat) (newId now : Nat),
      Rel.createComment db postId userId none newId now
        = (db, .badRequest "Comment content is required"))
    ∧ (∀ (db : Rel.DB) (postId userId : Nat) (s : String) (newId now : Nat),
      0 < (jsTrim s).length →
      ∀ m, (Rel.createComment db postId userId (some s) newId now).2
        ≠ .badRequest m) := by
  have hvalfalse : ∀ (content : Option String) (attachments : List String),
      FileSrv.contentTruthy content = true ∨ attachments ≠ [] →
      (!(FileSrv.contentTruthy content) && attachments.length == 0) = false := by
    intro content attachments h
    rcases h with h | h
    · simp [h]
    · have : attachments.length ≠ 0 := fun hl => h (List.length_eq_zero.mp hl)
      simp [this]
  refine ⟨?_, ?_, ?_, ?_, ?_, ?_, ?_⟩
  · intro st content attachments userName userEmail newId now h1 h2
    simp [FileSrv.createPost, h1, h2]
  · intro st content attachments userName userEmail newId now h m
    have hcond := hvalfalse content attachments h
    simp only [FileSrv.createPost, hcond, Bool.false_eq_true, if_false]
    split <;> simp
  · intro st postId content attachments userName userEmail newId now h1 h2
    simp [FileSrv.createComment, h1, h2]
  · intro st postId content attachments userName userEmail newId now h m
    have hcond := hvalfalse content attachments h
    simp only [FileSrv.createComment, hcond, Bool.false_eq_true, if_false]
    split <;> simp
  · intro db postId userId s newId now h
    have : ((jsTrim s).length == 0) = true := by simp [h]
    simp [Rel.createComment, this]
  · intro db postId userId newId now
    rfl
  · intro db postId userId s newId now h m
    have htrim : ((jsTrim s).length == 0) = false := by
      simp only [beq_eq_false_iff_ne]; omega
    simp only [Rel.createComment, htrim, Bool.false_eq_true, if_false]
    split
    · simp
    · split <;> simp

/-- Witness for C7 (amended): the empty-content empty-attachments post
is rejected with no state change; a whitespace-only post is not
rejected as invalid; and the relational route rejects the
whitespace-only comment. -/
theorem c7_validation_amended_witness :
    FileSrv.createPost ⟨[], [], []⟩ (some "") [] none none 1 0
      = (⟨[], [], []⟩, .badRequest "Post content or attachments required")
    ∧ (FileSrv.createPost ⟨[], [], []⟩ (some " ") [] none none 1 0).2
      ≠ .badRequest "Post content or attachments required"
    ∧ Rel.createComment ⟨[], [], [], [], []⟩ 1 1 (some " ") 9 0
      = (⟨[], [], [], [], []⟩, .badRequest "Comment content is required")
    ∧ (Rel.createComment ⟨[], [], [], [], []⟩ 1 1 (some "hi") 9 0).2
      ≠ .badRequest "Comment content is required" := by
  refine ⟨?_, ?_, ?_, ?_⟩
  · exact c7_validation_amended.1 ⟨[], [], []⟩ (some "") [] none none 1 0 (by decide) rfl
  · exact c7_validation_amended.2.1 ⟨[], [], []⟩ (some " ") [] none none 1 0
      (Or.inl (by decide)) "Post content or attachments required"
  · exact c7_validation_amended.2.2.2.2.1 ⟨[], [], [], [], []⟩ 1 1 " " 9 0 (by decide)
  · exact c7_validation_amended.2.2.2.2.2.2 ⟨[], [], [], [], []⟩ 1 1 "hi" 9 0 (by decide)
      "Comment content is required"

/-! ## C9 — load equivalence across the two backends -/

theorem sortByCreatedDesc_sorted_eq (l : List FileSrv.FPost)
    (h : l.Pairwise (fun a b => b.created_at ≤ a.created_at)) :
    Storage.sortByCreatedDesc l = l := by
  induction l with
  | nil => rfl
  | cons p rest ih =>
    have hrest := (List.pairwise_cons.mp h).2
    have hstep : Storage.sortByCreatedDesc (p :: rest)
        = Storage.insertByCreatedDesc p (Storage.sortByCreatedDesc rest) := rfl
    rw [hstep, ih hrest]
    cases rest with
    | nil => rfl
    | cons q qs =>
      have hpq : q.created_at ≤ p.created_at := (List.pairwise_cons.mp h).1 q (by simp)
      simp [Storage.insertByCreatedDesc, hpq]

theorem foldl_objAssign_append (stored : List (String × FileSrv.FUser)) :
    ∀ acc : List (String × FileSrv.FUser),
    (∀ x ∈ stored, ∀ a ∈ acc, a.1 ≠ x.1) →
    (stored.map Prod.fst).Nodup →
    stored.foldl (fun obj e => Storage.objAssign obj e.1 e.2) acc = acc ++ stored := by
  induction stored with
  | nil => intro acc _ _; simp
  | cons e rest ih =>
    intro acc hdisj hnd
    have hkey : (acc.any (fun a => a.1 == e.1)) = false := by
      rw [List.any_eq_false]
      intro a ha
      simp [hdisj e (by simp) a ha]
    have hassign : Storage.objAssign acc e.1 e.2 = acc ++ [e] := by
      simp [Storage.objAssign, hkey]
    have hnd2 : (e.1 :: rest.map Prod.fst).Nodup := by
      rw [List.map_cons] at hnd; exact hnd
    have hnd' := List.nodup_cons.mp hnd2
    have hstep : (e :: rest).foldl (fun obj x => Storage.objAssign obj x.1 x.2) acc
        = rest.foldl (fun obj x => Storage.objAssign obj x.1 x.2)
            (Storage.objAssign acc e.1 e.2) := rfl
    rw [hstep, hassign, ih (acc ++ [e]) ?_ hnd'.2]
    · simp
    · intro x hx a ha
      rcases List.mem_append.mp ha with h | h
      · exact hdisj x (by simp [hx]) a h
      · have hae : a = e := by simpa using h
        subst hae
        intro hcontra
        exact hnd'.1 (hcontra ▸ List.mem_map.mpr ⟨x, hx, rfl⟩)

/-- C9 counterexample: the same stored posts sequence — two posts in
ascending `created_at` order — loads as-is in file mode but re-sorted
newest-first in document-store mode, so a caller can tell the backends
apart from the load result. -/
theorem c9_backend_load_counterexample :
    Storage.loadPostsMongo [⟨1, "a", "a@x", "p1", [], 1⟩, ⟨2, "b", "b@x", "p2", [], 2⟩]
      ≠ Storage.loadPostsFileStored
          [⟨1, "a", "a@x", "p1", [], 1⟩, ⟨2, "b", "b@x", "p2", [], 2⟩] := by
  decide

/-- C9 (amended): loads agree across the two backends for users (any
stored collection with distinct emails loads as the same mapping) and
for comments (both return the stored sequence untouched); for posts the
document-store load sorts by `created_at` descending while the file
load returns the stored order, so the two agree exactly on stored
sequences already ordered newest-first (which the write path maintains)
and differ otherwise. -/
theorem c9_backend_load_amended :
    (∀ stored : List (String × FileSrv.FUser), (stored.map Prod.fst).Nodup →
      Storage.loadUsersMongo stored = Storage.loadUsersFileStored stored)
    ∧ (∀ stored : List FileSrv.FComment,
      Storage.loadCommentsMongo stored = Storage.loadCommentsFileStored stored)
    ∧ (∀ stored : List FileSrv.FPost,
      stored.Pairwise (fun a b => b.created_at ≤ a.created_at) →
      Storage.loadPostsMongo stored = Storage.loadPostsFileStored stored) := by
  refine ⟨?_, ?_, ?_⟩
  · intro stored hnd
    have h := foldl_objAssign_append stored [] (by intro x _ a ha; cases ha) hnd
    simpa [Storage.loadUsersMongo, Storage.loadUsersFileStored] using h
  · intro stored
    rfl
  · intro stored hsorted
    simpa [Storage.loadPostsMongo, Storage.loadPostsFileStored] using
      sortByCreatedDesc_sorted_eq stored hsorted

/-- Witness for C9 (amended): a two-user mapping with distinct emails
and a newest-first two-post sequence load identically under both
backends. -/
theorem c9_backend_load_amended_witness :
    Storage.loadUsersMongo [("a@x", ⟨false⟩), ("b@x", ⟨true⟩)]
      = Storage.loadUsersFileStored [("a@x", ⟨false⟩), ("b@x", ⟨true⟩)]
    ∧ Storage.loadPostsMongo [⟨2, "b", "b@x", "p2", [], 2⟩, ⟨1, "a", "a@x", "p1", [], 1⟩]
      = Storage.loadPostsFileStored
          [⟨2, "b", "b@x", "p2", [], 2⟩, ⟨1, "a", "a@x", "p1", [], 1⟩] := by
  constructor
  · exact c9_backend_load_amended.1 [("a@x", ⟨false⟩), ("b@x", ⟨true⟩)] (by decide)
  · exact c9_backend_load_amended.2.2
      [⟨2, "b", "b@x", "p2", [], 2⟩, ⟨1, "a", "a@x", "p1", [], 1⟩] (by decide)

/-! ## C2 — parity of repeated like toggles -/

theorem togglePostLike_fst_like (db : Rel.DB) (postId userId : Nat)
    (hrows : Rel.postLikeRows db postId userId = [])
    (hany : db.posts.any (fun p => p.id == postId) = true)
    (huany : db.users.any (fun u => u == userId) = true) :
    (Rel.togglePostLike db postId userId).1
      = { db with
          post_likes := db.post_likes ++ [⟨postId, userId⟩],
          posts := db.posts.map (fun p =>
            if p.id == postId then { p with likes_count := p.likes_count + 1 } else p) } := by
  simp only [Rel.togglePostLike, hrows]
  rw [if_neg (by simp), if_pos (by rw [hany, huany]; rfl)]
  cases hfind : (db.posts.map (fun p =>
      if p.id == postId then { p with likes_count := p.likes_count + 1 } else p)).find?
      (fun p => p.id == postId) <;> rfl

theorem togglePostLike_fst_unlike (db : Rel.DB) (postId userId : Nat)
    (r : Rel.PostLike) (rs : List Rel.PostLike)
    (hrows : Rel.postLikeRows db postId userId = r :: rs) :
    (Rel.togglePostLike db postId userId).1
      = { db with
          post_likes := db.post_likes.filter
            (fun l => !(l.post_id == postId && l.user_id == userId)),
          posts := db.posts.map (fun p =>
            if p.id == postId then { p with likes_count := p.likes_count - 1 } else p) } := by
  simp only [Rel.togglePostLike, hrows]
  rw [if_pos (by simp)]
  cases hfind : (db.posts.map (fun p =>
      if p.id == postId then { p with likes_count := p.likes_count - 1 } else p)).find?
      (fun p => p.id == postId) <;> rfl

theorem iterTogglePost_inv (db0 : Rel.DB) (postId userId : Nat)
    (hpost : db0.posts.any (fun p => p.id == postId) = true)
    (hu : userId ∈ db0.users)
    (h0 : Rel.postLikeRows db0 postId userId = []) :
    ∀ n,
      (Rel.iterTogglePost db0 postId userId n).users = db0.users
      ∧ (Rel.iterTogglePost db0 postId userId n).posts
          = db0.posts.map (fun q =>
              if q.id == postId then
                { q with likes_count := q.likes_count + ((n % 2 : Nat) : Int) }
              else q)
      ∧ (Rel.iterTogglePost db0 postId userId n).post_likes
          = db0.post_likes ++ (if n % 2 == 1 then [⟨postId, userId⟩] else []) := by
  have h0' : db0.post_likes.filter
      (fun l => l.post_id == postId && l.user_id == userId) = [] := h0
  intro n
  induction n with
  | zero =>
    refine ⟨rfl, ?_, by simp [Rel.iterTogglePost]⟩
    have hf : (fun q : Rel.Post =>
        if q.id == postId then
          { q with likes_count := q.likes_count + ((0 % 2 : Nat) : Int) }
        else q) = fun q => q := by
      funext q; by_cases h : q.id == postId <;> simp [h]
    simp [Rel.iterTogglePost, hf]
  | succ n ih =>
    obtain ⟨hus, hps, hls⟩ := ih
    have hiter : Rel.iterTogglePost db0 postId userId (n + 1)
        = (Rel.togglePostLike (Rel.iterTogglePost db0 postId userId n) postId userId).1 := rfl
    have huany : (Rel.iterTogglePost db0 postId userId n).users.any
        (fun u => u == userId) = true := by
      rw [hus]; exact List.any_eq_true.mpr ⟨userId, hu, by simp⟩
    rcases Nat.mod_two_eq_zero_or_one n with hpar | hpar
    · -- even step: the pair is not present, the toggle inserts it
      have hls' : (Rel.iterTogglePost db0 postId userId n).post_likes = db0.post_likes := by
        rw [hls, hpar]; simp
      have hrows : Rel.postLikeRows (Rel.iterTogglePost db0 postId userId n) postId userId
          = [] := by
        rw [Rel.postLikeRows, hls']; exact h0'
      have hany : (Rel.iterTogglePost db0 postId userId n).posts.any
          (fun p => p.id == postId) = true := by
        rw [hps, List.any_map]
        have hcomp : ((fun p : Rel.Post => p.id == postId) ∘ (fun q =>
            if q.id == postId then
              { q with likes_count := q.likes_count + ((n % 2 : Nat) : Int) }
            else q)) = fun p : Rel.Post => p.id == postId := by
          funext q; by_cases h : q.id == postId <;> simp [Function.comp, h]
        rw [hcomp, hpost]
      have hstep := togglePostLike_fst_like _ postId userId hrows hany huany
      rw [hiter, hstep]
      refine ⟨hus, ?_, ?_⟩
      · rw [hps, List.map_map]
        apply List.map_congr_left
        intro q _
        by_cases h : q.id == postId <;> simp [Function.comp, h]
        omega
      · have h1 : (n + 1) % 2 = 1 := by omega
        rw [hls', h1]
        simp
    · -- odd step: exactly the pair's row is present, the toggle removes it
      have hls' : (Rel.iterTogglePost db0 postId userId n).post_likes
          = db0.post_likes ++ [⟨postId, userId⟩] := by
        rw [hls, hpar]; simp
      have hrows : Rel.postLikeRows (Rel.iterTogglePost db0 postId userId n) postId userId
          = [⟨postId, userId⟩] := by
        rw [Rel.postLikeRows, hls', List.filter_append, h0']
        simp
      have hstep := togglePostLike_fst_unlike _ postId userId ⟨postId, userId⟩ [] hrows
      rw [hiter, hstep]
      refine ⟨hus, ?_, ?_⟩
      · rw [hps, List.map_map]
        apply List.map_congr_left
        intro q _
        by_cases h : q.id == postId <;> simp [Function.comp, h]
        omega
      · have h1 : (n + 1) % 2 = 0 := by omega
        rw [hls', List.filter_append, filter_not_eq_self_of_filter_nil _ _ h0', h1]
        simp

theorem toggleCommentLike_fst_like (db : Rel.DB) (commentId userId : Nat)
    (hrows : Rel.commentLikeRows db commentId userId = [])
    (hany : db.comments.any (fun c => c.id == commentId) = true)
    (huany : db.users.any (fun u => u == userId) = true) :
    (Rel.toggleCommentLike db commentId userId).1
      = { db with
          comment_likes := db.comment_likes ++ [⟨commentId, userId⟩],
          comments := db.comments.map (fun c =>
            if c.id == commentId then { c with likes_count := c.likes_count + 1 } else c) } := by
  simp only [Rel.toggleCommentLike, hrows]
  rw [if_neg (by simp), if_pos (by rw [hany, huany]; rfl)]
  cases hfind : (db.comments.map (fun c =>
      if c.id == commentId then { c with likes_count := c.likes_count + 1 } else c)).find?
      (fun c => c.id == commentId) <;> rfl

theorem toggleCommentLike_fst_unlike (db : Rel.DB) (commentId userId : Nat)
    (r : Rel.CommentLike) (rs : List Rel.CommentLike)
    (hrows : Rel.commentLikeRows db commentId userId = r :: rs) :
    (Rel.toggleCommentLike db commentId userId).1
      = { db with
          comment_likes := db.comment_likes.filter
            (fun l => !(l.comment_id == commentId && l.user_id == userId)),
          comments := db.comments.map (fun c =>
            if c.id == commentId then { c with likes_count := c.likes_count - 1 } else c) } := by
  simp only [Rel.toggleCommentLike, hrows]
  rw [if_pos (by simp)]
  cases hfind : (db.comments.map (fun c =>
      if c.id == commentId then { c with likes_count := c.likes_count - 1 } else c)).find?
      (fun c => c.id == commentId) <;> rfl

theorem iterToggleComment_inv (db0 : Rel.DB) (commentId userId : Nat)
    (hcomment : db0.comments.any (fun c => c.id == commentId) = true)
    (hu : userId ∈ db0.users)
    (h0 : Rel.commentLikeRows db0 commentId userId = []) :
    ∀ n,
      (Rel.iterToggleComment db0 commentId userId n).users = db0.users
      ∧ (Rel.iterToggleComment db0 commentId userId n).comments
          = db0.comments.map (fun q =>
              if q.id == commentId then
                { q with likes_count := q.likes_count + ((n % 2 : Nat) : Int) }
              else q)
      ∧ (Rel.iterToggleComment db0 commentId userId n).comment_likes
          = db0.comment_likes ++ (if n % 2 == 1 then [⟨commentId, userId⟩] else []) := by
  have h0' : db0.comment_likes.filter
      (fun l => l.comment_id == commentId && l.user_id == userId) = [] := h0
  intro n
  induction n with
  | zero =>
    refine ⟨rfl, ?_, by simp [Rel.iterToggleComment]⟩
    have hf : (fun q : Rel.Comment =>
        if q.id == commentId then
          { q with likes_count := q.likes_count + ((0 % 2 : Nat) : Int) }
        else q) = fun q => q := by
      funext q; by_cases h : q.id == commentId <;> simp [h]
    simp [Rel.iterToggleComment, hf]
  | succ n ih =>
    obtain ⟨hus, hcs, hls⟩ := ih
    have hiter : Rel.iterToggleComment db0 commentId userId (n + 1)
        = (Rel.toggleCommentLike (Rel.iterToggleComment db0 commentId userId n)
            commentId userId).1 := rfl
    have huany : (Rel.iterToggleComment db0 commentId userId n).users.any
        (fun u => u == userId) = true := by
      rw [hus]; exact List.any_eq_true.mpr ⟨userId, hu, by simp⟩
    rcases Nat.mod_two_eq_zero_or_one n with hpar | hpar
    · have hls' : (Rel.iterToggleComment db0 commentId userId n).comment_likes
          = db0.comment_likes := by
        rw [hls, hpar]; simp
      have hrows : Rel.commentLikeRows (Rel.iterToggleComment db0 commentId userId n)
          commentId userId = [] := by
        rw [Rel.commentLikeRows, hls']; exact h0'
      have hany : (Rel.iterToggleComment db0 commentId userId n).comments.any
          (fun c => c.id == commentId) = true := by
        rw [hcs, List.any_map]
        have hcomp : ((fun c : Rel.Comment => c.id == commentId) ∘ (fun q =>
            if q.id == commentId then
              { q with likes_count := q.likes_count + ((n % 2 : Nat) : Int) }
            else q)) = fun c : Rel.Comment => c.id == commentId := by
          funext q; by_cases h : q.id == commentId <;> simp [Function.comp, h]
        rw [hcomp, hcomment]
      have hstep := toggleCommentLike_fst_like _ commentId userId hrows hany huany
      rw [hiter, hstep]
      refine ⟨hus, ?_, ?_⟩
      · rw [hcs, List.map_map]
        apply List.map_congr_left
        intro q _
        by_cases h : q.id == commentId <;> simp [Function.comp, h]
        omega
      · have h1 : (n + 1) % 2 = 1 := by omega
        rw [hls', h1]
        simp
    · have hls' : (Rel.iterToggleComment db0 commentId userId n).comment_likes
          = db0.comment_likes ++ [⟨commentId, userId⟩] := by
        rw [hls, hpar]; simp
      have hrows : Rel.commentLikeRows (Rel.iterToggleComment db0 commentId userId n)
          commentId userId = [⟨commentId, userId⟩] := by
        rw [Rel.commentLikeRows, hls', List.filter_append, h0']
        simp
      have hstep := toggleCommentLike_fst_unlike _ commentId userId ⟨commentId, userId⟩ [] hrows
      rw [hiter, hstep]
      refine ⟨hus, ?_, ?_⟩
      · rw [hcs, List.map_map]
        apply List.map_congr_left
        intro q _
        by_cases h : q.id == commentId <;> simp [Function.comp, h]
        omega
      · have h1 : (n + 1) % 2 = 0 := by omega
        rw [hls', List.filter_append, filter_not_eq_self_of_filter_nil _ _ h0', h1]
        simp

/-- C2: starting from a state whose like table holds no row for the
(subject, user) pair — with the subject existing and the user real — a
sequence of `n` like toggles on that pair leaves exactly `n % 2` like
rows for the pair (0 when even, 1 when odd), never more than one at any
point, and the subject's `likes_count` sits exactly `n % 2` above its
initial value; identically for posts and for comments. -/
theorem c2_toggle_parity :
    (∀ (db0 : Rel.DB) (postId userId : Nat),
      db0.posts.any (fun p => p.id == postId) = true →
      userId ∈ db0.users →
      Rel.postLikeRows db0 postId userId = [] →
      ∀ n,
        (Rel.postLikeRows (Rel.iterTogglePost db0 postId userId n) postId userId).length
          = n % 2
        ∧ (Rel.postLikeRows (Rel.iterTogglePost db0 postId userId n) postId userId).length
          ≤ 1
        ∧ ((Rel.iterTogglePost db0 postId userId n).posts.find?
              (fun p => p.id == postId)).map (fun p => p.likes_count)
          = (db0.posts.find? (fun p => p.id == postId)).map
              (fun p => p.likes_count + ((n % 2 : Nat) : Int)))
    ∧ (∀ (db0 : Rel.DB) (commentId userId : Nat),
      db0.comments.any (fun c => c.id == commentId) = true →
      userId ∈ db0.users →
      Rel.commentLikeRows db0 commentId userId = [] →
      ∀ n,
        (Rel.commentLikeRows (Rel.iterToggleComment db0 commentId userId n)
            commentId userId).length = n % 2
        ∧ (Rel.commentLikeRows (Rel.iterToggleComment db0 commentId userId n)
            commentId userId).length ≤ 1
        ∧ ((Rel.iterToggleComment db0 commentId userId n).comments.find?
              (fun c => c.id == commentId)).map (fun c => c.likes_count)
          = (db0.comments.find? (fun c => c.id == commentId)).map
              (fun c => c.likes_count + ((n % 2 : Nat) : Int))) := by
  constructor
  · intro db0 postId userId hpost hu h0 n
    obtain ⟨hus, hps, hls⟩ := iterTogglePost_inv db0 postId userId hpost hu h0 n
    have h0' : db0.post_likes.filter
        (fun l => l.post_id == postId && l.user_id == userId) = [] := h0
    have hrows : Rel.postLikeRows (Rel.iterTogglePost db0 postId userId n) postId userId
        = (if n % 2 == 1 then [⟨postId, userId⟩] else []) := by
      rw [Rel.postLikeRows, hls, List.filter_append, h0']
      rcases Nat.mod_two_eq_zero_or_one n with hp | hp <;> simp [hp]
    have hidpres : ∀ x : Rel.Post,
        Rel.Post.id (if x.id == postId then
          { x with likes_count := x.likes_count + ((n % 2 : Nat) : Int) } else x)
        = Rel.Post.id x := by
      intro x; by_cases h : x.id == postId <;> simp [h]
    refine ⟨?_, ?_, ?_⟩
    · rw [hrows]
      rcases Nat.mod_two_eq_zero_or_one n with hp | hp <;> simp [hp]
    · rw [hrows]
      rcases Nat.mod_two_eq_zero_or_one n with hp | hp <;> simp [hp]
    · rw [hps, find?_map_of_id_pres db0.posts Rel.Post.id postId _ hidpres]
      cases hfd : db0.posts.find? (fun p => p.id == postId) with
      | none => simp
      | some p =>
        have hpid : p.id = postId := by simpa using List.find?_some hfd
        simp [hpid]
  · intro db0 commentId userId hcomment hu h0 n
    obtain ⟨hus, hcs, hls⟩ := iterToggleComment_inv db0 commentId userId hcomment hu h0 n
    have h0' : db0.comment_likes.filter
        (fun l => l.comment_id == commentId && l.user_id == userId) = [] := h0
    have hrows : Rel.commentLikeRows (Rel.iterToggleComment db0 commentId userId n)
        commentId userId = (if n % 2 == 1 then [⟨commentId, userId⟩] else []) := by
      rw [Rel.commentLikeRows, hls, List.filter_append, h0']
      rcases Nat.mod_two_eq_zero_or_one n with hp | hp <;> simp [hp]
    have hidpres : ∀ x : Rel.Comment,
        Rel.Comment.id (if x.id == commentId then
          { x with likes_count := x.likes_count + ((n % 2 : Nat) : Int) } else x)
        = Rel.Comment.id x := by
      intro x; by_cases h : x.id == commentId <;> simp [h]
    refine ⟨?_, ?_, ?_⟩
    · rw [hrows]
      rcases Nat.mod_two_eq_zero_or_one n with hp | hp <;> simp [hp]
    · rw [hrows]
      rcases Nat.mod_two_eq_zero_or_one n with hp | hp <;> simp [hp]
    · rw [hcs, find?_map_of_id_pres db0.comments Rel.Comment.id commentId _ hidpres]
      cases hfd : db0.comments.find? (fun c => c.id == commentId) with
      | none => simp
      | some c =>
        have hcid : c.id = commentId := by simpa using List.find?_some hfd
        simp [hcid]

/-- Witness for C2: three toggles on (post 1, user 2) starting from
`likes_count = 5` leave one like row and count 6; four toggles on
(comment 4, user 2) leave zero like rows. -/
theorem c2_toggle_parity_witness :
    (Rel.postLikeRows
        (Rel.iterTogglePost ⟨[2], [⟨1, 7, "x", 5, 0, 0⟩], [], [], []⟩ 1 2 3) 1 2).length = 1
    ∧ ((Rel.iterTogglePost ⟨[2], [⟨1, 7, "x", 5, 0, 0⟩], [], [], []⟩ 1 2 3).posts.find?
        (fun p => p.id == 1)).map (fun p => p.likes_count) = some 6
    ∧ (Rel.commentLikeRows
        (Rel.iterToggleComment ⟨[2], [], [⟨4, 1, 7, "c", 0, 0⟩], [], []⟩ 4 2 4) 4 2).length
      = 0 := by
  have h := (c2_toggle_parity.1 ⟨[2], [⟨1, 7, "x", 5, 0, 0⟩], [], [], []⟩ 1 2
    (by decide) (by decide) (by decide)) 3
  have h2 := (c2_toggle_parity.2 ⟨[2], [], [⟨4, 1, 7, "c", 0, 0⟩], [], []⟩ 4 2
    (by decide) (by decide) (by decide)) 4
  refine ⟨h.1.trans (by decide), h.2.2.trans (by decide), h2.1.trans (by decide)⟩
